import Mathlib

/-!
Shallow embedding of `src/lib.rs` of the `secret-manager-1password` crate.

The crate exposes one public operation, `SecretManager::new`, which

1. derives a 1Password vault name from the logical key (`Test` if the key
   ends with `"_test"`, `Production` otherwise),
2. strips trailing `"_test"` occurrences from the key
   (Rust `str::trim_end_matches`),
3. builds the reference `op://<vault>/AzureKeyVault<clean_key>/url`,
4. spawns `op read <reference>`, decodes its captured stdout as UTF-8 and
   trims trailing whitespace (Rust `str::trim_end`).

The external subprocess boundary is modelled by an explicit `Agent`
parameter mapping the program name and argument list to either an
OS-level spawn error or a captured output record.  Raw bytes are `List Nat`
(each `< 256` where it matters), machine strings are Lean `String`.
-/

/-- Rust `str::ends_with` for a string pattern: the characters of the
pattern are a suffix of the characters of the receiver. -/
def rustEndsWith (s pat : String) : Bool :=
  decide (pat.data <:+ s.data)

/-- Rust `str::starts_with` for a string pattern. -/
def rustStartsWith (s pat : String) : Bool :=
  decide (pat.data <+: s.data)

/-- Core loop of Rust `str::trim_end_matches`: repeatedly remove the
pattern from the end of the list while it is a suffix. -/
def stripSuffixAll (pat : List Char) (s : List Char) : List Char :=
  if h : pat ≠ [] ∧ pat <:+ s then
    stripSuffixAll pat (s.take (s.length - pat.length))
  else
    s
termination_by s.length
decreasing_by
  have hlen : pat.length ≤ s.length := h.2.length_le
  have hpos : 0 < pat.length := List.length_pos.mpr h.1
  simp only [List.length_take]
  omega

/-- Rust `str::trim_end_matches(pat)`. -/
def trim_end_matches (s pat : String) : String :=
  ⟨stripSuffixAll pat.data s.data⟩

/-- The Unicode `White_Space` property, which is what Rust
`char::is_whitespace` tests. -/
def isRustWhitespace (c : Char) : Bool :=
  c.toNat = 0x9 || c.toNat = 0xA || c.toNat = 0xB || c.toNat = 0xC ||
  c.toNat = 0xD || c.toNat = 0x20 || c.toNat = 0x85 || c.toNat = 0xA0 ||
  c.toNat = 0x1680 || (0x2000 ≤ c.toNat && c.toNat ≤ 0x200A) ||
  c.toNat = 0x2028 || c.toNat = 0x2029 || c.toNat = 0x202F ||
  c.toNat = 0x205F || c.toNat = 0x3000

/-- Rust `str::trim_end`: remove all trailing whitespace characters. -/
def trim_end (s : String) : String :=
  ⟨(s.data.reverse.dropWhile isRustWhitespace).reverse⟩

/-- The vault-name / reference derivation of `SecretManager::new`
(`src/lib.rs` lines 41-49): the pure resolver part. -/
def op_path (key : String) : String :=
  let vault := if rustEndsWith key "_test" then "Test" else "Production"
  let clean_key := trim_end_matches key "_test"
  "op://" ++ vault ++ "/AzureKeyVault" ++ clean_key ++ "/url"

/-- An OS-level spawn error (Rust `std::io::Error`), kept abstract as a
carried description. -/
structure OsError where
  kind : String
deriving DecidableEq, Repr

/-- Captured result of a finished subprocess (Rust `std::process::Output`):
exit status plus raw stdout and stderr bytes. -/
structure CommandOutput where
  status : Int
  stdout : List Nat
  stderr : List Nat
deriving DecidableEq, Repr

/-- The subprocess boundary: given the program name and its argument list,
the surrounding OS either fails to spawn (`Except.error`) or returns the
captured output of the finished process (`Except.ok`). -/
def Agent : Type :=
  String → List String → Except OsError CommandOutput

/-- Whether a byte is a UTF-8 continuation byte (`10xxxxxx`). -/
def isCont (b : Nat) : Bool :=
  0x80 ≤ b && b < 0xC0

/-- Strict UTF-8 decoding of a byte list, as done by Rust
`String::from_utf8`: rejects stray continuation bytes, overlong forms,
surrogate code points and code points above `0x10FFFF`. -/
def utf8Decode : List Nat → Option (List Char)
  | [] => some []
  | b :: rest =>
    if b < 0x80 then
      (utf8Decode rest).map (fun cs => Char.ofNat b :: cs)
    else if b < 0xC2 then
      none
    else if b < 0xE0 then
      match rest with
      | b1 :: rest1 =>
        if isCont b1 then
          (utf8Decode rest1).map
            (fun cs => Char.ofNat ((b - 0xC0) * 0x40 + (b1 - 0x80)) :: cs)
        else none
      | [] => none
    else if b < 0xF0 then
      match rest with
      | b1 :: b2 :: rest2 =>
        if isCont b1 && isCont b2 then
          let cp := (b - 0xE0) * 0x1000 + (b1 - 0x80) * 0x40 + (b2 - 0x80)
          if cp < 0x800 then none
          else if 0xD800 ≤ cp && cp < 0xE000 then none
          else (utf8Decode rest2).map (fun cs => Char.ofNat cp :: cs)
        else none
      | _ => none
    else if b < 0xF5 then
      match rest with
      | b1 :: b2 :: b3 :: rest3 =>
        if isCont b1 && isCont b2 && isCont b3 then
          let cp := (b - 0xF0) * 0x40000 + (b1 - 0x80) * 0x1000 +
            (b2 - 0x80) * 0x40 + (b3 - 0x80)
          if cp < 0x10000 then none
          else if cp > 0x10FFFF then none
          else (utf8Decode rest3).map (fun cs => Char.ofNat cp :: cs)
        else none
      | _ => none
    else none

/-- The error taxonomy of the crate (both variants are produced by
`anyhow::Context` in the source): a spawn failure wrapping the OS error,
or a UTF-8 decode failure.  Each carries its context message verbatim. -/
inductive SMError where
  | executionFailure (context : String) (cause : OsError)
  | decodeFailure (context : String)
deriving DecidableEq, Repr

/-- The value object of the crate: holds the resolved URL. -/
structure SecretManager where
  url : String
deriving DecidableEq, Repr

/-- The retriever part of `SecretManager::new` (`src/lib.rs` lines 51-62):
classify the spawn result, decode captured stdout as UTF-8, trim trailing
whitespace. -/
def run_and_decode (res : Except OsError CommandOutput) :
    Except SMError SecretManager :=
  match res with
  | .error e => .error (.executionFailure "Error executing command" e)
  | .ok out =>
    match utf8Decode out.stdout with
    | none => .error (.decodeFailure "Failed to convert command output to string")
    | some cs => .ok ⟨trim_end ⟨cs⟩⟩

/-- `SecretManager::new` (`src/lib.rs` lines 40-63), with the subprocess
boundary made explicit: resolve the reference, invoke `op read <reference>`
through the agent, then decode and trim. -/
def SecretManager.new (agent : Agent) (key : String) :
    Except SMError SecretManager :=
  run_and_decode (agent "op" ["read", op_path key])

/-- `SecretManager::wrong_command_for_test` (`src/lib.rs` lines 68-81):
same retrieval pipeline, but invoking the non-existent binary `_op_`
with the fixed argument `foo`. -/
def SecretManager.wrong_command_for_test (agent : Agent) :
    Except SMError SecretManager :=
  run_and_decode (agent "_op_" ["read", "foo"])

/-- The resolver as the specification text describes it, for comparison
with `op_path`: remove one trailing occurrence of the reserved suffix
(spec wording: the key "with the suffix removed"). -/
def resolve_spec (key : String) : String :=
  if rustEndsWith key "_test" then
    "op://Test/AzureKeyVault" ++ ⟨key.data.take (key.data.length - 5)⟩ ++ "/url"
  else
    "op://Production/AzureKeyVault" ++ key ++ "/url"

/-! ## General facts about the embedded string operations -/

theorem stripSuffixAll_of_not_suffix (pat s : List Char) (h : ¬ pat <:+ s) :
    stripSuffixAll pat s = s := by
  rw [stripSuffixAll]
  simp [h]

theorem stripSuffixAll_append (pat s : List Char) (hp : pat ≠ []) :
    stripSuffixAll pat (s ++ pat) = stripSuffixAll pat s := by
  rw [stripSuffixAll]
  simp [hp, List.suffix_append, List.take_left]

theorem stripSuffixAll_no_suffix (pat : List Char) (hp : pat ≠ []) :
    ∀ s : List Char, ¬ pat <:+ stripSuffixAll pat s := by
  intro s
  induction s using stripSuffixAll.induct pat with
  | case1 s h ih =>
    rw [stripSuffixAll]
    simp [h]
    exact ih
  | case2 s h =>
    rw [stripSuffixAll]
    simp [h]
    intro hsuf
    exact h ⟨hp, hsuf⟩

theorem trim_end_matches_of_not_ends (k : String)
    (h : rustEndsWith k "_test" = false) : trim_end_matches k "_test" = k := by
  have hns : ¬ ("_test".data <:+ k.data) := of_decide_eq_false h
  simp only [trim_end_matches, stripSuffixAll_of_not_suffix _ _ hns]

theorem trim_end_data (s : String) :
    (trim_end s).data = s.data.rdropWhile isRustWhitespace := rfl

theorem trim_end_last_not_white (s : String) (c : Char)
    (h : (trim_end s).data.getLast? = some c) : isRustWhitespace c = false := by
  rw [trim_end_data] at h
  have hne : s.data.rdropWhile isRustWhitespace ≠ [] := by
    intro he
    rw [he] at h
    simp at h
  have hlast := List.rdropWhile_last_not isRustWhitespace s.data hne
  have hgl : (s.data.rdropWhile isRustWhitespace).getLast hne = c := by
    have hq := List.getLast?_eq_getLast (s.data.rdropWhile isRustWhitespace) hne
    rw [hq] at h
    exact Option.some.inj h
  rw [hgl] at hlast
  simpa using hlast

/-! ## Claims about the resolver -/

/-- Claim C1, counterexample: the resolver removes every trailing
occurrence of the reserved suffix, not one.  On the key
`"demo_test_test"` the code produces `"op://Test/AzureKeyVaultdemo/url"`,
while the claim (one suffix removal, as `resolve_spec` states it) would
produce `"op://Test/AzureKeyVaultdemo_test/url"`. -/
theorem resolver_single_strip_counterexample :
    op_path "demo_test_test" = "op://Test/AzureKeyVaultdemo/url" ∧
    resolve_spec "demo_test_test" = "op://Test/AzureKeyVaultdemo_test/url" ∧
    resolve_spec "demo_test_test" ≠ op_path "demo_test_test" := by
  refine ⟨?_, by decide, ?_⟩ <;>
    simp [op_path, trim_end_matches, rustEndsWith, stripSuffixAll, resolve_spec] <;>
    decide

/-- Claim C1 (amended): for every logical key not ending in `"_test"` the
resolver produces exactly `"op://Production/AzureKeyVault" ++ k ++ "/url"`;
for every key ending in `"_test"` it produces
`"op://Test/AzureKeyVault" ++ k2 ++ "/url"` where `k2` is the key with all
trailing occurrences of the suffix removed.  In particular `"Demo"` yields
`"op://Production/AzureKeyVaultDemo/url"` and `"demo_test"` yields
`"op://Test/AzureKeyVaultdemo/url"`. -/
theorem resolver_reference_shape :
    (∀ k : String, rustEndsWith k "_test" = false →
      op_path k = "op://Production/AzureKeyVault" ++ k ++ "/url") ∧
    (∀ k : String, rustEndsWith k "_test" = true →
      op_path k = "op://Test/AzureKeyVault" ++ trim_end_matches k "_test" ++ "/url") ∧
    op_path "Demo" = "op://Production/AzureKeyVaultDemo/url" ∧
    op_path "demo_test" = "op://Test/AzureKeyVaultdemo/url" := by
  refine ⟨?_, ?_, ?_, ?_⟩
  · intro k h
    have hm : ("op://" ++ "Production" ++ "/AzureKeyVault" : String) =
        "op://Production/AzureKeyVault" := by decide
    simp only [op_path, h, Bool.false_eq_true, if_false]
    rw [trim_end_matches_of_not_ends k h, hm]
  · intro k h
    have hm : ("op://" ++ "Test" ++ "/AzureKeyVault" : String) =
        "op://Test/AzureKeyVault" := by decide
    simp only [op_path, h, if_true]
    rw [hm]
  · simp [op_path, trim_end_matches, rustEndsWith, stripSuffixAll]
    decide
  · simp [op_path, trim_end_matches, rustEndsWith, stripSuffixAll]
    decide

/-- Claim C1 witness: the amended statement applied to the concrete keys
`"plain"` (no suffix) and `"demo_test"` (with suffix). -/
theorem resolver_reference_shape_witness :
    op_path "plain" = "op://Production/AzureKeyVault" ++ "plain" ++ "/url" ∧
    op_path "demo_test" =
      "op://Test/AzureKeyVault" ++ trim_end_matches "demo_test" "_test" ++ "/url" :=
  ⟨resolver_reference_shape.1 "plain" (by decide),
   resolver_reference_shape.2.1 "demo_test" (by decide)⟩

/-- Claim C2, counterexample: normalization is not a single removal of the
suffix.  The key `"x_test_test"` ends in two occurrences of `"_test"`, and
the code normalizes it to `"x"`, not `"x_test"`. -/
theorem trim_end_matches_double_suffix_counterexample :
    trim_end_matches "x_test_test" "_test" = "x" ∧
    trim_end_matches "x_test_test" "_test" ≠ "x_test" := by
  constructor <;> simp [trim_end_matches, stripSuffixAll] <;> decide

/-- Claim C2 (amended): normalization removes every trailing occurrence of
`"_test"` (so `k ++ "_test"` normalizes to the normalization of `k`, and
the normalized key never retains the suffix), while a key that contains
`"_test"` only as an internal, non-trailing substring is unchanged. -/
theorem trim_end_matches_strips_all :
    (∀ k : String,
      trim_end_matches (k ++ "_test") "_test" = trim_end_matches k "_test") ∧
    (∀ k : String, rustEndsWith k "_test" = false →
      trim_end_matches k "_test" = k) ∧
    (∀ k : String, ¬ ("_test".data <:+ (trim_end_matches k "_test").data)) ∧
    trim_end_matches "a_testb" "_test" = "a_testb" := by
  refine ⟨?_, ?_, ?_, ?_⟩
  · intro k
    simp only [trim_end_matches, String.data_append]
    rw [stripSuffixAll_append _ _ (by decide)]
  · exact trim_end_matches_of_not_ends
  · intro k
    exact stripSuffixAll_no_suffix "_test".data (by decide) k.data
  · simp [trim_end_matches, stripSuffixAll]
    decide

/-- Claim C2 witness: the amended statement applied to the concrete keys
`"demo"` and `"a_testb"`. -/
theorem trim_end_matches_strips_all_witness :
    trim_end_matches ("demo" ++ "_test") "_test" = trim_end_matches "demo" "_test" ∧
    trim_end_matches "a_testb" "_test" = "a_testb" ∧
    ¬ ("_test".data <:+ (trim_end_matches "demo_test" "_test").data) :=
  ⟨trim_end_matches_strips_all.1 "demo",
   trim_end_matches_strips_all.2.1 "a_testb" (by decide),
   trim_end_matches_strips_all.2.2.1 "demo_test"⟩

/-- Claim C7: the resolver is a total, deterministic function with no
failure path.  Even the edge case where the input is exactly the reserved
suffix is resolved (to a reference with an empty normalized key) rather
than rejected, and every output is a reference of the shape
`op://.../url`. -/
theorem resolver_total_no_validation :
    op_path "_test" = "op://Test/AzureKeyVault/url" ∧
    ∀ k : String,
      rustStartsWith (op_path k) "op://" = true ∧
      rustEndsWith (op_path k) "/url" = true := by
  constructor
  · simp [op_path, trim_end_matches, rustEndsWith, stripSuffixAll] <;> decide
  · intro k
    constructor
    · apply decide_eq_true
      simp only [op_path, String.data_append, List.append_assoc]
      exact List.prefix_append _ _
    · apply decide_eq_true
      simp only [op_path, String.data_append]
      exact List.suffix_append _ _

/-- Claim C9: the empty string is accepted as a logical key: it derives
the Production environment and the reference
`"op://Production/AzureKeyVault/url"`, and the constructor then proceeds
to invoke the external agent on exactly that reference (no non-emptiness
check exists anywhere on the path). -/
theorem empty_key_accepted :
    op_path "" = "op://Production/AzureKeyVault/url" ∧
    ∀ agent : Agent,
      SecretManager.new agent "" =
        run_and_decode (agent "op" ["read", "op://Production/AzureKeyVault/url"]) := by
  have h1 : op_path "" = "op://Production/AzureKeyVault/url" := by
    simp [op_path, trim_end_matches, rustEndsWith, stripSuffixAll] <;> decide
  refine ⟨h1, fun agent => ?_⟩
  show run_and_decode (agent "op" ["read", op_path ""]) = _
  rw [h1]

/-! ## Claims about the retriever -/

/-- Claim C3: retrieval classifies the captured output by the decode step
alone, never by the exit status of the subprocess: for every captured
output record (any exit status) whose stdout bytes decode as UTF-8, the
constructor returns those bytes, decoded and trimmed, as the value. -/
theorem retrieval_ignores_exit_status (agent : Agent) (key : String)
    (out : CommandOutput) (cs : List Char)
    (hspawn : agent "op" ["read", op_path key] = .ok out)
    (hdec : utf8Decode out.stdout = some cs) :
    SecretManager.new agent key = .ok ⟨trim_end ⟨cs⟩⟩ := by
  show run_and_decode (agent "op" ["read", op_path key]) = _
  rw [hspawn]
  simp [run_and_decode, hdec]

/-- Claim C3 witness: an agent that exits with status 1 but writes the
diagnostic text `"op: item not found"` to stdout still yields that text
as the retrieved value. -/
theorem retrieval_ignores_exit_status_witness :
    SecretManager.new
      (fun _ _ => .ok ⟨1, "op: item not found".data.map Char.toNat, []⟩)
      "Demo" = .ok ⟨"op: item not found"⟩ := by
  have h := retrieval_ignores_exit_status
    (fun _ _ => .ok ⟨1, "op: item not found".data.map Char.toNat, []⟩)
    "Demo" ⟨1, "op: item not found".data.map Char.toNat, []⟩
    "op: item not found".data rfl (by decide)
  exact h.trans rfl

/-- Claim C4: when the subprocess cannot be launched, the operation
returns an `executionFailure` error carrying the underlying OS-level
error (and never a successful value); the same holds for the test-only
`wrong_command_for_test` path that invokes the non-existent binary. -/
theorem spawn_failure_returns_execution_failure :
    (∀ (agent : Agent) (key : String) (e : OsError),
      agent "op" ["read", op_path key] = .error e →
      SecretManager.new agent key =
        .error (.executionFailure "Error executing command" e) ∧
      ∀ sm : SecretManager, SecretManager.new agent key ≠ .ok sm) ∧
    (∀ (agent : Agent) (e : OsError),
      agent "_op_" ["read", "foo"] = .error e →
      SecretManager.wrong_command_for_test agent =
        .error (.executionFailure "Error executing command" e)) := by
  constructor
  · intro agent key e hspawn
    have hval : SecretManager.new agent key =
        .error (.executionFailure "Error executing command" e) := by
      show run_and_decode (agent "op" ["read", op_path key]) = _
      rw [hspawn]
      rfl
    refine ⟨hval, fun sm hok => ?_⟩
    rw [hval] at hok
    exact Except.noConfusion hok
  · intro agent e hspawn
    show run_and_decode (agent "_op_" ["read", "foo"]) = _
    rw [hspawn]
    rfl

/-- Claim C4 witness: an agent whose spawn fails with a `"NotFound"` OS
error produces exactly the execution-failure error. -/
theorem spawn_failure_returns_execution_failure_witness :
    SecretManager.new (fun _ _ => .error ⟨"NotFound"⟩) "Demo" =
      .error (.executionFailure "Error executing command" ⟨"NotFound"⟩) :=
  (spawn_failure_returns_execution_failure.1
    (fun _ _ => .error ⟨"NotFound"⟩) "Demo" ⟨"NotFound"⟩ rfl).1

/-- Claim C5: when the subprocess is launched but its captured stdout
bytes are not valid UTF-8, the operation fails with the decode-failure
error. -/
theorem invalid_utf8_returns_decode_failure (agent : Agent) (key : String)
    (out : CommandOutput)
    (hspawn : agent "op" ["read", op_path key] = .ok out)
    (hdec : utf8Decode out.stdout = none) :
    SecretManager.new agent key =
      .error (.decodeFailure "Failed to convert command output to string") := by
  show run_and_decode (agent "op" ["read", op_path key]) = _
  rw [hspawn]
  simp [run_and_decode, hdec]

/-- Claim C5 witness: the byte `0xFF` is not valid UTF-8, so an agent
emitting it makes retrieval fail with the decode error. -/
theorem invalid_utf8_returns_decode_failure_witness :
    SecretManager.new (fun _ _ => .ok ⟨0, [0xFF], []⟩) "Demo" =
      .error (.decodeFailure "Failed to convert command output to string") :=
  invalid_utf8_returns_decode_failure
    (fun _ _ => .ok ⟨0, [0xFF], []⟩) "Demo" ⟨0, [0xFF], []⟩ rfl (by decide)

/-- Claim C6: on every successful retrieval, the returned value contains
no trailing newline or carriage-return character; in particular an agent
emitting `"https://foo.bar.baz.net/\n"` on stdout yields exactly
`"https://foo.bar.baz.net/"`. -/
theorem success_value_has_no_trailing_newline :
    (∀ (agent : Agent) (key : String) (sm : SecretManager),
      SecretManager.new agent key = .ok sm →
      ∀ c : Char, sm.url.data.getLast? = some c → c ≠ '\n' ∧ c ≠ '\r') ∧
    (∀ agent : Agent,
      agent "op" ["read", op_path "demo_test"] =
        .ok ⟨0, "https://foo.bar.baz.net/\n".data.map Char.toNat, []⟩ →
      SecretManager.new agent "demo_test" =
        .ok ⟨"https://foo.bar.baz.net/"⟩) := by
  constructor
  · intro agent key sm hok c hlast
    have hrun : run_and_decode (agent "op" ["read", op_path key]) = .ok sm := hok
    cases hres : agent "op" ["read", op_path key] with
    | error e =>
      rw [hres] at hrun
      exact absurd hrun (by simp [run_and_decode])
    | ok out =>
      rw [hres] at hrun
      cases hdec : utf8Decode out.stdout with
      | none => simp [run_and_decode, hdec] at hrun
      | some cs =>
        simp [run_and_decode, hdec] at hrun
        have hurl : sm.url = trim_end ⟨cs⟩ := by rw [← hrun]
        rw [hurl] at hlast
        have hw := trim_end_last_not_white ⟨cs⟩ c hlast
        constructor <;> intro hcx <;> rw [hcx] at hw <;> exact absurd hw (by decide)
  · intro agent h
    show run_and_decode (agent "op" ["read", op_path "demo_test"]) = _
    rw [h]
    rfl

/-- Claim C6 witness: the general guarantee and the concrete scenario,
both at the agent emitting `"https://foo.bar.baz.net/\n"` with exit
status 0. -/
theorem success_value_has_no_trailing_newline_witness :
    ('/' ≠ '\n' ∧ '/' ≠ '\r') ∧
    SecretManager.new
      (fun _ _ => .ok ⟨0, "https://foo.bar.baz.net/\n".data.map Char.toNat, []⟩)
      "demo_test" = .ok ⟨"https://foo.bar.baz.net/"⟩ := by
  have h2 := (success_value_has_no_trailing_newline).2
    (fun _ _ => .ok ⟨0, "https://foo.bar.baz.net/\n".data.map Char.toNat, []⟩) rfl
  exact ⟨(success_value_has_no_trailing_newline).1
    (fun _ _ => .ok ⟨0, "https://foo.bar.baz.net/\n".data.map Char.toNat, []⟩)
    "demo_test" ⟨"https://foo.bar.baz.net/"⟩ h2 '/' (by decide), h2⟩

/-- Claim C8: retrieval is strictly success-or-failure: every invocation
returns either a value or a typed error, and every error is one of the
two classified failures (spawn or decode), each tagged with the context
of the step that failed. -/
theorem retrieval_success_or_typed_error :
    (∀ (agent : Agent) (key : String),
      (∃ sm, SecretManager.new agent key = .ok sm) ∨
      (∃ err, SecretManager.new agent key = .error err)) ∧
    (∀ (agent : Agent) (key : String) (err : SMError),
      SecretManager.new agent key = .error err →
      (∃ e, err = .executionFailure "Error executing command" e) ∨
      err = .decodeFailure "Failed to convert command output to string") := by
  constructor
  · intro agent key
    have hnew : SecretManager.new agent key =
        run_and_decode (agent "op" ["read", op_path key]) := rfl
    cases hres : agent "op" ["read", op_path key] with
    | error e =>
      right
      refine ⟨.executionFailure "Error executing command" e, ?_⟩
      rw [hnew, hres]
      rfl
    | ok out =>
      cases hdec : utf8Decode out.stdout with
      | none =>
        right
        refine ⟨.decodeFailure "Failed to convert command output to string", ?_⟩
        rw [hnew, hres]
        simp [run_and_decode, hdec]
      | some cs =>
        left
        refine ⟨⟨trim_end ⟨cs⟩⟩, ?_⟩
        rw [hnew, hres]
        simp [run_and_decode, hdec]
  · intro agent key err herr
    have hnew : SecretManager.new agent key =
        run_and_decode (agent "op" ["read", op_path key]) := rfl
    rw [hnew] at herr
    cases hres : agent "op" ["read", op_path key] with
    | error e =>
      rw [hres] at herr
      simp [run_and_decode] at herr
      exact .inl ⟨e, herr.symm⟩
    | ok out =>
      rw [hres] at herr
      cases hdec : utf8Decode out.stdout with
      | none =>
        simp [run_and_decode, hdec] at herr
        exact .inr herr.symm
      | some cs =>
        simp [run_and_decode, hdec] at herr

/-- Claim C8 witness: the error-classification clause applied to a
concrete spawn failure. -/
theorem retrieval_success_or_typed_error_witness :
    (∃ e, SMError.executionFailure "Error executing command" ⟨"NotFound"⟩ =
      .executionFailure "Error executing command" e) ∨
    SMError.executionFailure "Error executing command" ⟨"NotFound"⟩ =
      .decodeFailure "Failed to convert command output to string" :=
  (retrieval_success_or_typed_error).2
    (fun _ _ => .error ⟨"NotFound"⟩) "Demo"
    (.executionFailure "Error executing command" ⟨"NotFound"⟩) rfl

/-- Claim C10: the success-path trimming removes every trailing whitespace
character of the decoded output — spaces, tabs and any Unicode whitespace,
not only newline and carriage return — while leaving the leading and
interior part of the string unchanged: every string splits as its trimmed
form followed by a run of whitespace characters, the trimmed form never
ends in whitespace, and the concrete examples show Unicode whitespace
being removed and leading or interior whitespace surviving. -/
theorem trim_end_removes_all_trailing_whitespace :
    (∀ s : String, ∃ ws : List Char,
      s.data = (trim_end s).data ++ ws ∧ ∀ c ∈ ws, isRustWhitespace c = true) ∧
    (∀ (s : String) (c : Char),
      (trim_end s).data.getLast? = some c → isRustWhitespace c = false) ∧
    trim_end "x \t\u00A0\u2003\u3000" = "x" ∧
    trim_end " a b \t\n" = " a b" := by
  refine ⟨?_, trim_end_last_not_white, by decide, by decide⟩
  intro s
  refine ⟨(s.data.reverse.takeWhile isRustWhitespace).reverse, ?_, ?_⟩
  · have h := List.takeWhile_append_dropWhile isRustWhitespace s.data.reverse
    calc s.data = s.data.reverse.reverse := (List.reverse_reverse _).symm
      _ = (s.data.reverse.takeWhile isRustWhitespace ++
            s.data.reverse.dropWhile isRustWhitespace).reverse := by rw [h]
      _ = (s.data.reverse.dropWhile isRustWhitespace).reverse ++
            (s.data.reverse.takeWhile isRustWhitespace).reverse :=
        List.reverse_append _ _
      _ = (trim_end s).data ++
            (s.data.reverse.takeWhile isRustWhitespace).reverse := rfl
  · intro c hc
    rw [List.mem_reverse] at hc
    exact List.mem_takeWhile_imp hc

/-- Claim C10 witness: the decomposition and the no-trailing-whitespace
guarantee applied to the concrete string `" a b "`. -/
theorem trim_end_removes_all_trailing_whitespace_witness :
    isRustWhitespace 'b' = false ∧
    ∃ ws : List Char, " a b ".data = (trim_end " a b ").data ++ ws ∧
      ∀ c ∈ ws, isRustWhitespace c = true :=
  ⟨(trim_end_removes_all_trailing_whitespace).2.1 " a b " 'b' (by decide),
   (trim_end_removes_all_trailing_whitespace).1 " a b "⟩
